import Mathlib

/-!
Verification of the exan measurement-analysis pipeline.

This file gives a shallow embedding, in Lean 4, of the core column-processing
pipeline of the exan repository: the statistical-test dispatch of
`process_columns` (src/main.py), the three analyses of src/utils/analyses.py,
the relevance combinator of src/utils/relevance_decorator.py, the
cumulative-frequency plot of src/utils/plots.py, and the significance ranking
and overview table of src/utils/reporting.py.  Python floats are modelled as
rationals (ℚ), Python dicts with a fixed key set as structures of `Option`
fields (a missing key is `none`), and Python code that can raise an exception
as functions into `Except String`.
-/

namespace Exan

/-- Embeds the `AnalysisResult` TypedDict of src/utils/types_custom.py
(plus the `column` key attached by `process_columns`): every field is optional,
as in a Python dict. -/
structure AnalysisResult where
  test : Option String := none
  F_statistic : Option ℚ := none
  t_statistic : Option ℚ := none
  U_statistic : Option ℚ := none
  p_value : Option ℚ := none
  significant : Option Bool := none
  relevance : Option Bool := none
  message : Option String := none
  mean_values : Option (List ℚ) := none
  error : Option String := none
  column : Option String := none
deriving Repr, DecidableEq

/-- The limits dictionary consumed by `relevance_decorator`
(src/utils/relevance_decorator.py): `limits_dict.get("lower_limit")` and
`limits_dict.get("upper_limit")`. -/
structure LimitsDict where
  lower_limit : Option ℚ := none
  upper_limit : Option ℚ := none
deriving Repr, DecidableEq

/-- Python `max` over a list: `none` on an empty list, where Python raises
`ValueError: max() arg is an empty sequence`. -/
def pyMax : List ℚ → Option ℚ
  | [] => none
  | a :: l => some (l.foldl max a)

/-- Python `min` over a list: `none` on an empty list. -/
def pyMin : List ℚ → Option ℚ
  | [] => none
  | a :: l => some (l.foldl min a)

/-- Fixed-point decimal rendering of a rational, modelling Python's
format specifier `:.Nf` (round-half-up stands in for the float rounding;
no claim depends on the rendered digits). -/
def formatFixed (digits : ℕ) (q : ℚ) : String :=
  let scale : ℕ := 10 ^ digits
  let n : ℤ := round (q * (scale : ℚ))
  let sign := if n < 0 then "-" else ""
  let m := n.natAbs
  let intPart := m / scale
  let fracPart := m % scale
  let fracStr := toString fracPart
  let pad := String.mk (List.replicate (digits - fracStr.length) '0')
  if digits = 0 then sign ++ toString intPart
  else sign ++ toString intPart ++ "." ++ pad ++ fracStr

/-- Embeds the body of `wrapper` in src/utils/relevance_decorator.py
(lines 21-43): the post-processing applied to the result returned by the
wrapped analysis function.  `Except.error` marks the one place the Python
body can raise: `max(result["mean_values"])` on an empty list. -/
def relevanceAugment (limits_dict : LimitsDict) (threshold : ℚ)
    (result : AnalysisResult) : Except String AnalysisResult :=
  match result.mean_values with
  | none => Except.ok result
  | some mv =>
    match limits_dict.lower_limit, limits_dict.upper_limit with
    | some lower_limit, some upper_limit =>
      let range_val := upper_limit - lower_limit
      if range_val = 0 then
        Except.ok { result with
          relevance := some false,
          message := some ("Zero range between limits – cannot assess relevance.") }
      else
        match pyMax mv, pyMin mv with
        | some mx, some mn =>
          let max_diff := mx - mn
          let rel : Bool := decide (threshold * range_val ≤ max_diff)
          let msg : String :=
            if !(result.significant.getD false) then
              "No statistically significant difference."
            else if rel then
              "Significant AND relevant (Diff=" ++ formatFixed 2 max_diff ++
                ", threshold=" ++ formatFixed 1 (threshold * 100) ++ "%)."
            else
              "Significant but NOT relevant (Diff=" ++ formatFixed 2 max_diff ++
                " < " ++ formatFixed 1 (threshold * 100) ++ "%)."
          Except.ok { result with relevance := some rel, message := some msg }
        | _, _ => Except.error ("ValueError: max() arg is an empty sequence")
    | _, _ =>
      Except.ok { result with
        relevance := some false,
        message := some ("Missing lower or upper limit – cannot assess relevance.") }

/-- A column-level view of the DataFrame rows used by one analysis run:
each row pairs its grouping-column value with its measurement-column value,
in DataFrame row order. -/
structure ColumnView where
  rows : List (String × ℚ)
deriving Repr, DecidableEq

/-- Embeds `relevance_decorator(limits_dict, threshold)(analyze_func)` of
src/utils/relevance_decorator.py: the wrapper first delegates to the wrapped
analysis function, then post-processes its result. -/
def relevance_decorator (limits_dict : LimitsDict) (threshold : ℚ)
    (analyze_func : ColumnView → String → String → AnalysisResult)
    (df : ColumnView) (group_col value_col : String) : Except String AnalysisResult :=
  relevanceAugment limits_dict threshold (analyze_func df group_col value_col)

/-- Embeds `pandas.unique` / `Series.unique`: the distinct elements of a list in
first-encountered order, collected by a single left-to-right pass. -/
def uniqueFirst (l : List String) : List String :=
  l.foldl (fun acc a => if a ∈ acc then acc else acc ++ [a]) []

/-- The grouping-column values of the rows, in row order
(`df[group_col]`). -/
def ColumnView.groupVals (df : ColumnView) : List String :=
  df.rows.map Prod.fst

/-- Embeds `df[df[group_col] == g][value_col]`: the measurement values of the rows
belonging to group `g`, in row order. -/
def ColumnView.groupSample (df : ColumnView) (g : String) : List ℚ :=
  (df.rows.filter (fun p => p.1 = g)).map Prod.snd

/-- Embeds `df[group_col].unique()`: the distinct groups in first-encountered
order. -/
def ColumnView.groups (df : ColumnView) : List String :=
  uniqueFirst df.groupVals

/-- Embeds `df[group_col].nunique()`: the number of distinct groups. -/
def numGroups (df : ColumnView) : ℕ :=
  df.groups.length

/-- Embeds `numpy.mean`: the arithmetic mean of a list (0 on the empty list, where
numpy yields NaN; no claim exercises the empty case). -/
def npMean (l : List ℚ) : ℚ :=
  l.sum / l.length

/-- The scipy statistical routines used by src/utils/analyses.py, treated as
an oracle (scipy is an external collaborator, not repository code): each
returns the pair (statistic, pvalue). -/
structure Scipy where
  f_oneway : List (List ℚ) → ℚ × ℚ
  ttest_ind : List ℚ → List ℚ → ℚ × ℚ
  mannwhitneyu : List ℚ → List ℚ → ℚ × ℚ

namespace AnovaAnalysis

/-- Embeds `AnovaAnalysis.analyze` of src/utils/analyses.py (lines 34-47):
one-way ANOVA across all groups in first-encountered order. -/
def analyze (sp : Scipy) (df : ColumnView) : AnalysisResult :=
  let groups := df.groups
  let samples := groups.map df.groupSample
  let result := sp.f_oneway samples
  let mean_values := samples.map npMean
  { test := some ("ANOVA"),
    F_statistic := some result.1,
    p_value := some result.2,
    significant := some (decide (result.2 < 1 / 20)),
    mean_values := some mean_values }

end AnovaAnalysis

namespace TTestAnalysis

/-- Embeds `TTestAnalysis.analyze` of src/utils/analyses.py (lines 54-70):
`len(groups) != 2` yields the error-only result; otherwise Welch's t-test on
the two group samples. -/
def analyze (sp : Scipy) (df : ColumnView) : AnalysisResult :=
  match df.groups with
  | [g1, g2] =>
    let s1 := df.groupSample g1
    let s2 := df.groupSample g2
    let result := sp.ttest_ind s1 s2
    { test := some ("T-Test"),
      t_statistic := some result.1,
      p_value := some result.2,
      significant := some (decide (result.2 < 1 / 20)),
      mean_values := some [npMean s1, npMean s2] }
  | _ => { error := some ("T-Test requires exactly two groups.") }

end TTestAnalysis

namespace MannWhitneyAnalysis

/-- Embeds `MannWhitneyAnalysis.analyze` of src/utils/analyses.py
(lines 77-93): `len(groups) != 2` yields the error-only result; otherwise the
two-sided Mann-Whitney U test on the two group samples. -/
def analyze (sp : Scipy) (df : ColumnView) : AnalysisResult :=
  match df.groups with
  | [g1, g2] =>
    let s1 := df.groupSample g1
    let s2 := df.groupSample g2
    let result := sp.mannwhitneyu s1 s2
    { test := some ("Mann-Whitney U-Test"),
      U_statistic := some result.1,
      p_value := some result.2,
      significant := some (decide (result.2 < 1 / 20)),
      mean_values := some [npMean s1, npMean s2] }
  | _ => { error := some ("Mann-Whitney U-Test requires exactly two groups.") }

end MannWhitneyAnalysis

/-- The three analysis classes that `process_columns` can place in
`analyses_to_run`. -/
inductive AnalysisKind where
  | ttest
  | mannwhitney
  | anova
deriving Repr, DecidableEq

/-- Selects `analyzer.analyze` for each analysis class. -/
def runAnalysis (sp : Scipy) : AnalysisKind → ColumnView → AnalysisResult
  | .ttest => TTestAnalysis.analyze sp
  | .mannwhitney => MannWhitneyAnalysis.analyze sp
  | .anova => AnovaAnalysis.analyze sp

/-- The `analyses_to_run` selection of `process_columns`
(src/main.py lines 36-41): keyed on the number of distinct values in the
grouping column. -/
def analysesToRun (num_groups : ℕ) : List AnalysisKind :=
  if num_groups = 2 then [.ttest, .mannwhitney]
  else if 2 < num_groups then [.anova]
  else []

/-- One iteration of the `for analysis_cls in analyses_to_run` loop of
`process_columns` (src/main.py lines 46-57): wrap `analyzer.analyze` with the
relevance decorator when relevance is configured and both limits are present,
run it, and attach the column name to the result. -/
def processOneAnalysis (sp : Scipy) (apply_relevance : Bool)
    (lower_limit upper_limit : Option ℚ) (relevance_threshold : ℚ)
    (df : ColumnView) (group_col value_col : String)
    (analysis_cls : AnalysisKind) : Except String AnalysisResult := do
  let func := fun d (_ _ : String) => runAnalysis sp analysis_cls d
  let result ←
    if apply_relevance && lower_limit.isSome && upper_limit.isSome then
      relevance_decorator
        { lower_limit := lower_limit, upper_limit := upper_limit }
        relevance_threshold func df group_col value_col
    else
      Except.ok (func df group_col value_col)
  Except.ok { result with column := some value_col }

/-- Embeds the per-column analysis loop of `process_columns`
(src/main.py lines 36-57): select the analyses by group cardinality, then run
each selected analysis in turn.  Returns the list of `AnalysisResult`s
appended to `results` for this value column. -/
def processColumn (sp : Scipy) (apply_relevance : Bool)
    (lower_limit upper_limit : Option ℚ) (relevance_threshold : ℚ)
    (df : ColumnView) (group_col value_col : String) :
    Except String (List AnalysisResult) :=
  (analysesToRun (numGroups df)).mapM
    (processOneAnalysis sp apply_relevance lower_limit upper_limit
      relevance_threshold df group_col value_col)

/-- Python `name.split('_')[-1]`: the segment of a string after its last
underscore (the whole string when it has none), computed on the character
list. -/
def splitLast (name : String) : String :=
  String.mk ((name.data.reverse.takeWhile (fun c => c ≠ '_')).reverse)

/-- Python dict insertion `m[k] = v`: updates the value in place when the key
exists, otherwise appends the binding. -/
def dictInsert (m : List (String × ℚ)) (k : String) (v : ℚ) : List (String × ℚ) :=
  if m.any (fun p => p.1 = k) then
    m.map (fun p => if p.1 = k then (k, v) else p)
  else m ++ [(k, v)]

/-- Python `m.get(k, default)` with the default left to the caller. -/
def dictGet (m : List (String × ℚ)) (k : String) : Option ℚ :=
  (m.find? (fun p => p.1 = k)).map Prod.snd

/-- The dict comprehension of `_sort_plots_by_significance`
(src/utils/reporting.py line 27):
`{result['column']: result['p_value'] for result in self.results}`.
A result missing either key makes Python raise `KeyError`, modelled as
`Except.error`.  Later results overwrite earlier ones for the same column. -/
def buildPValues (results : List AnalysisResult) : Except String (List (String × ℚ)) :=
  results.foldlM (fun m result =>
    match result.column, result.p_value with
    | some c, some p => Except.ok (dictInsert m c p)
    | _, _ => Except.error ("KeyError: column or p_value")) []

/-- The ranking key of `_sort_plots_by_significance` (line 30):
`p_values.get(item[0].split('_')[-1], float('inf'))`; `none` plays the role
of `float('inf')`. -/
def sortKey (p_values : List (String × ℚ)) (name : String) : Option ℚ :=
  dictGet p_values (splitLast name)

/-- Comparison of ranking keys, with `none` as `float('inf')`. -/
def keyLE : Option ℚ → Option ℚ → Bool
  | some x, some y => decide (x ≤ y)
  | some _, none => true
  | none, some _ => false
  | none, none => true

/-- Insert an element into an already-sorted list after every element that
compares `le` to it — the insertion step of a stable sort. -/
def insertSorted (le : α → α → Bool) (x : α) : List α → List α
  | [] => [x]
  | y :: ys => if le y x then y :: insertSorted le x ys else x :: y :: ys

/-- Stable sort by repeated insertion, processing the input left to right.
Python's `sorted` is a stable sort, and a stable sort's output is determined
by the key order together with the input order, so this is a faithful model
of `sorted(self.plots.items(), key=...)`. -/
def stableSort (le : α → α → Bool) (l : List α) : List α :=
  l.foldl (fun acc x => insertSorted le x acc) []

/-- Embeds `_sort_plots_by_significance` of src/utils/reporting.py
(lines 22-30): with no results the plot mapping is left untouched; otherwise
the plots are stably sorted by the p-value found for the last
underscore-separated segment of each plot name, missing entries ranking as
`float('inf')`.  The plot payload type is abstract (`α`). -/
def sortPlotsBySignificance (results : List AnalysisResult)
    (plots : List (String × α)) : Except String (List (String × α)) :=
  if results.isEmpty then Except.ok plots
  else do
    let p_values ← buildPValues results
    Except.ok (stableSort
      (fun a b => keyLE (sortKey p_values a.1) (sortKey p_values b.1)) plots)

/-- Python `f"{x}"` on the value of `result.get(key, 'N/A')` for a boolean
field: `str(True)`, `str(False)`, or the `'N/A'` default. -/
def boolCell : Option Bool → String
  | some true => "True"
  | some false => "False"
  | none => "N/A"

/-- Python `f"{result.get('p_value', 'N/A'):.4f}"`
(src/utils/reporting.py line 40): formatting a present float succeeds;
formatting the string default `'N/A'` with `:.4f` raises `ValueError`. -/
def pValueCell : Option ℚ → Except String String
  | some p => Except.ok (formatFixed 4 p)
  | none => Except.error ("ValueError: Unknown format code f for object of type str")

/-- One `<tr>` row of `_generate_overview_table_html`
(src/utils/reporting.py line 40). -/
def overviewRowHtml (result : AnalysisResult) : Except String String := do
  let pv ← pValueCell result.p_value
  Except.ok ("<tr><td>" ++ result.column.getD ("N/A") ++
    "</td><td>" ++ result.test.getD ("N/A") ++
    "</td><td>" ++ pv ++
    "</td><td>" ++ boolCell result.significant ++
    "</td><td>" ++ boolCell result.relevance ++
    "</td><td>" ++ result.message.getD ("N/A") ++ "</td></tr>")

/-- Embeds `_generate_overview_table_html` of src/utils/reporting.py
(lines 32-42): one row per `AnalysisResult`. -/
def overviewTableHtml (results : List AnalysisResult) : Except String String :=
  if results.isEmpty then Except.ok ("")
  else do
    let rows ← results.mapM overviewRowHtml
    Except.ok ("<h2>Analysis Overview</h2>" ++
      "<table border=\x271\x27><tr><th>Column</th><th>Test</th><th>P-Value</th>" ++
      "<th>Significant</th><th>Relevance</th><th>Message</th></tr>" ++
      String.join rows ++ "</table>")

/-- The two exception-raising stages of `ReportGenerator` that every concrete
report format runs on construction and generation: the significance sort of
`__init__` followed by the overview table (src/utils/reporting.py).  Returns
the sorted plot mapping and the table markup. -/
def reportGeneratorCore (results : List AnalysisResult)
    (plots : List (String × α)) : Except String (List (String × α) × String) := do
  let sorted ← sortPlotsBySignificance results plots
  let table ← overviewTableHtml results
  Except.ok (sorted, table)

/-- The per-column limits dictionary passed to the plot methods
(`lower_limit`, `upper_limit`, `target_value`). -/
structure Limits where
  lower_limit : Option ℚ := none
  upper_limit : Option ℚ := none
  target_value : Option ℚ := none
deriving Repr, DecidableEq

/-- One scatter trace added by `CumulativeFrequencyPlot.plot`
(src/utils/plots.py line 219): the x points, the cumulative heights, and the
group name. -/
structure Trace where
  x : List ℚ
  y : List ℚ
  name : String
deriving Repr, DecidableEq

/-- One limit line drawn by `_add_limit_line`: its coordinate, its
orientation (`add_hline` vs `add_vline`), and the style key it was drawn
under (`LSL`, `USL` or `T`). -/
structure LimitLine where
  value : ℚ
  horizontal : Bool
  styleKey : String
deriving Repr, DecidableEq

/-- Embeds `_add_all_limit_lines` of src/utils/plots.py (lines 73-116): walks
lower limit, upper limit, target value in that order and draws a line for
each value that is present, horizontal or vertical as requested. -/
def addAllLimitLines (limits : Limits) (is_horizontal : Bool) : List LimitLine :=
  ([(limits.lower_limit, "LSL"), (limits.upper_limit, "USL"),
    (limits.target_value, "T")] : List (Option ℚ × String)).filterMap
    (fun lv => lv.1.map (fun v =>
      { value := v, horizontal := is_horizontal, styleKey := lv.2 }))

/-- What `CumulativeFrequencyPlot.plot` adds to the figure: its scatter
traces and its limit lines. -/
structure CumulativePlotOutput where
  traces : List Trace
  limitLines : List LimitLine
deriving Repr, DecidableEq

/-- Embeds `CumulativeFrequencyPlot.plot` of src/utils/plots.py
(lines 213-223): for each group in first-encountered order, the group's
values sorted ascending (`np.sort`) against the heights
`np.arange(1, n + 1) / n`, followed by the three limits drawn as vertical
lines (`is_horizontal = False`). -/
def cumulativeFrequencyPlot (df : ColumnView) (limits : Limits) :
    CumulativePlotOutput :=
  let traces := df.groups.map (fun g =>
    let vals := stableSort (fun a b => decide (a ≤ b)) (df.groupSample g)
    let n := vals.length
    { x := vals,
      y := (List.range n).map (fun i => ((i : ℚ) + 1) / (n : ℚ)),
      name := g })
  { traces := traces, limitLines := addAllLimitLines limits false }

/-! ### Generic facts about the stable insertion sort -/

section SortLemmas

variable {α : Type} (le : α → α → Bool)

theorem insertSorted_perm (x : α) (l : List α) :
    List.Perm (insertSorted le x l) (x :: l) := by
  induction l with
  | nil => simp [insertSorted]
  | cons y ys ih =>
    by_cases h : le y x = true
    · simp only [insertSorted, h, if_true]
      exact ((ih).cons y).trans (List.Perm.swap x y ys)
    · simp only [insertSorted, h]
      simp

theorem foldl_insertSorted_perm (l acc : List α) :
    List.Perm (l.foldl (fun acc x => insertSorted le x acc) acc) (acc ++ l) := by
  induction l generalizing acc with
  | nil => simp
  | cons x xs ih =>
    simp only [List.foldl_cons]
    refine (ih (insertSorted le x acc)).trans ?_
    have h1 : List.Perm (insertSorted le x acc ++ xs) ((x :: acc) ++ xs) :=
      (insertSorted_perm le x acc).append_right xs
    refine h1.trans ?_
    rw [List.cons_append]
    exact List.perm_middle.symm

theorem stableSort_perm (l : List α) : List.Perm (stableSort le l) l := by
  simpa using foldl_insertSorted_perm le l []

theorem mem_insertSorted {x z : α} {l : List α} :
    z ∈ insertSorted le x l ↔ z = x ∨ z ∈ l := by
  simpa using (insertSorted_perm le x l).mem_iff (a := z)

theorem pairwise_insertSorted
    (htot : ∀ a b, le a b = true ∨ le b a = true)
    (htrans : ∀ a b c, le a b = true → le b c = true → le a c = true)
    (x : α) (l : List α) (hl : l.Pairwise (fun a b => le a b = true)) :
    (insertSorted le x l).Pairwise (fun a b => le a b = true) := by
  induction l with
  | nil => simp [insertSorted]
  | cons y ys ih =>
    rcases List.pairwise_cons.mp hl with ⟨hy, hys⟩
    by_cases h : le y x = true
    · simp only [insertSorted, h, if_true]
      refine List.pairwise_cons.mpr ⟨?_, ih hys⟩
      intro z hz
      rcases (mem_insertSorted le).mp hz with rfl | hz
      · exact h
      · exact hy z hz
    · have hxy : le x y = true := (htot x y).resolve_right h
      simp only [insertSorted, h, if_false]
      refine List.pairwise_cons.mpr ⟨?_, hl⟩
      intro z hz
      rcases List.mem_cons.mp hz with rfl | hz
      · exact hxy
      · exact htrans x y z hxy (hy z hz)

theorem pairwise_stableSort
    (htot : ∀ a b, le a b = true ∨ le b a = true)
    (htrans : ∀ a b c, le a b = true → le b c = true → le a c = true)
    (l : List α) :
    (stableSort le l).Pairwise (fun a b => le a b = true) := by
  suffices h : ∀ (l acc : List α), acc.Pairwise (fun a b => le a b = true) →
      (l.foldl (fun acc x => insertSorted le x acc) acc).Pairwise
        (fun a b => le a b = true) from h l [] (by simp)
  intro l
  induction l with
  | nil => intro acc hacc; simpa using hacc
  | cons x xs ih =>
    intro acc hacc
    exact ih _ (pairwise_insertSorted le htot htrans x acc hacc)

theorem filter_insertSorted_neg (p : α → Bool) (x : α) (l : List α)
    (hp : p x = false) :
    (insertSorted le x l).filter p = l.filter p := by
  induction l with
  | nil => simp [insertSorted, hp]
  | cons y ys ih =>
    by_cases h : le y x = true
    · simp only [insertSorted, h, if_true, List.filter_cons]
      by_cases hy : p y = true <;> simp [hy, ih]
    · simp [insertSorted, h, List.filter_cons, hp]

theorem filter_insertSorted_pos
    (htrans : ∀ a b c, le a b = true → le b c = true → le a c = true)
    (p : α → Bool)
    (hcompat : ∀ a b, p a = true → (p b = true ↔ (le a b = true ∧ le b a = true)))
    (x : α) (l : List α) (hl : l.Pairwise (fun a b => le a b = true))
    (hp : p x = true) :
    (insertSorted le x l).filter p = l.filter p ++ [x] := by
  induction l with
  | nil => simp [insertSorted, hp]
  | cons y ys ih =>
    rcases List.pairwise_cons.mp hl with ⟨hy, hys⟩
    by_cases h : le y x = true
    · simp only [insertSorted, h, if_true, List.filter_cons]
      by_cases hpy : p y = true
      · simp [hpy, ih hys]
      · simp [hpy, ih hys]
    · have hnone : ∀ z ∈ y :: ys, ¬(p z = true) := by
        intro z hz hzp
        have hzx : le z x = true := ((hcompat x z hp).mp hzp).2
        rcases List.mem_cons.mp hz with rfl | hz
        · exact h hzx
        · exact h (htrans y z x (hy z hz) hzx)
      have hfil : (y :: ys).filter p = [] := by
        rw [List.filter_eq_nil_iff]
        intro a ha hpa
        exact hnone a ha hpa
      simp [insertSorted, h, List.filter_cons, hp, hfil]

theorem filter_stableSort
    (htot : ∀ a b, le a b = true ∨ le b a = true)
    (htrans : ∀ a b c, le a b = true → le b c = true → le a c = true)
    (p : α → Bool)
    (hcompat : ∀ a b, p a = true → (p b = true ↔ (le a b = true ∧ le b a = true)))
    (l : List α) :
    (stableSort le l).filter p = l.filter p := by
  suffices h : ∀ (l acc : List α), acc.Pairwise (fun a b => le a b = true) →
      (l.foldl (fun acc x => insertSorted le x acc) acc).filter p =
        acc.filter p ++ l.filter p by simpa using h l [] (by simp)
  intro l
  induction l with
  | nil => intro acc hacc; simp
  | cons x xs ih =>
    intro acc hacc
    simp only [List.foldl_cons]
    rw [ih _ (pairwise_insertSorted le htot htrans x acc hacc)]
    by_cases hp : p x = true
    · rw [filter_insertSorted_pos le htrans p hcompat x acc hacc hp]
      simp [List.filter_cons, hp]
    · rw [filter_insertSorted_neg le p x acc (by simpa using hp)]
      simp [List.filter_cons, hp]

end SortLemmas

/-! ### Facts about the ranking-key order -/

theorem keyLE_total (a b : Option ℚ) : keyLE a b = true ∨ keyLE b a = true := by
  cases a <;> cases b <;> simp [keyLE, le_total]

theorem keyLE_trans (a b c : Option ℚ) (h1 : keyLE a b = true)
    (h2 : keyLE b c = true) : keyLE a c = true := by
  cases a <;> cases b <;> cases c <;> simp_all [keyLE]
  exact le_trans h1 h2

theorem keyLE_antisymm_iff (a b : Option ℚ) :
    (keyLE a b = true ∧ keyLE b a = true) ↔ a = b := by
  cases a <;> cases b <;> simp [keyLE]
  exact ⟨fun ⟨h1, h2⟩ => le_antisymm h1 h2, fun h => by simp [h]⟩

/-! ### Facts about Python max and min -/

theorem init_le_foldl_max (l : List ℚ) : ∀ a : ℚ, a ≤ l.foldl max a := by
  induction l with
  | nil => intro a; simp
  | cons x xs ih =>
    intro a
    exact le_trans (le_max_left a x) (ih (max a x))

theorem foldl_min_le_init (l : List ℚ) : ∀ a : ℚ, l.foldl min a ≤ a := by
  induction l with
  | nil => intro a; simp
  | cons x xs ih =>
    intro a
    exact le_trans (ih (min a x)) (min_le_left a x)

theorem pyMin_le_pyMax {l : List ℚ} {mx mn : ℚ}
    (hmx : pyMax l = some mx) (hmn : pyMin l = some mn) : mn ≤ mx := by
  cases l with
  | nil => simp [pyMax] at hmx
  | cons a t =>
    simp only [pyMax, Option.some.injEq] at hmx
    simp only [pyMin, Option.some.injEq] at hmn
    subst hmx; subst hmn
    exact le_trans (foldl_min_le_init t a) (init_le_foldl_max t a)

theorem pyMax_isSome {l : List ℚ} (h : l ≠ []) : (pyMax l).isSome := by
  cases l with
  | nil => exact absurd rfl h
  | cons a t => simp [pyMax]

/-! ### Structural facts about the relevance combinator -/

/-- Whatever branch `relevanceAugment` takes, a successfully returned result
differs from the input only in `relevance` and `message`. -/
theorem relevanceAugment_frame (limits_dict : LimitsDict) (threshold : ℚ)
    (r r' : AnalysisResult)
    (h : relevanceAugment limits_dict threshold r = Except.ok r') :
    r'.test = r.test ∧ r'.F_statistic = r.F_statistic ∧
    r'.t_statistic = r.t_statistic ∧ r'.U_statistic = r.U_statistic ∧
    r'.p_value = r.p_value ∧ r'.significant = r.significant ∧
    r'.mean_values = r.mean_values ∧ r'.error = r.error ∧
    r'.column = r.column := by
  cases hmv : r.mean_values with
  | none =>
    simp only [relevanceAugment, hmv, Except.ok.injEq] at h
    subst h; simp_all
  | some mv =>
    cases hlo : limits_dict.lower_limit with
    | none =>
      cases hhi : limits_dict.upper_limit <;>
        simp only [relevanceAugment, hmv, hlo, hhi, Except.ok.injEq] at h <;>
        subst h <;> simp_all
    | some lo =>
      cases hhi : limits_dict.upper_limit with
      | none =>
        simp only [relevanceAugment, hmv, hlo, hhi, Except.ok.injEq] at h
        subst h; simp_all
      | some hi =>
        by_cases hr : hi - lo = 0
        · simp only [relevanceAugment, hmv, hlo, hhi, hr, if_true,
            Except.ok.injEq] at h
          subst h; simp_all
        · simp only [relevanceAugment, hmv, hlo, hhi, hr, if_false,
            if_neg hr] at h
          cases hpm : pyMax mv with
          | none =>
            cases hpn : pyMin mv <;> simp only [hpm, hpn] at h <;> cases h
          | some mx =>
            cases hpn : pyMin mv with
            | none => simp only [hpm, hpn] at h; cases h
            | some mn =>
              simp only [hpm, hpn, Except.ok.injEq] at h
              subst h; simp_all

/-- The function `relevanceAugment` succeeds whenever the result's `mean_values`, if
present, is a nonempty list (the shape every engine test produces). -/
theorem relevanceAugment_isOk (limits_dict : LimitsDict) (threshold : ℚ)
    (r : AnalysisResult) (h : ∀ l, r.mean_values = some l → l ≠ []) :
    (relevanceAugment limits_dict threshold r).isOk = true := by
  unfold relevanceAugment
  cases hmv : r.mean_values with
  | none => rfl
  | some mv =>
    cases mv with
    | nil => exact absurd (h [] hmv) (by simp)
    | cons a t =>
      cases limits_dict.lower_limit with
      | none => cases limits_dict.upper_limit <;> rfl
      | some lo =>
        cases limits_dict.upper_limit with
        | none => rfl
        | some hi =>
          by_cases hr : hi - lo = 0
          · simp [hr, Except.isOk, Except.toBool]
          · simp [hr, pyMax, pyMin, Except.isOk, Except.toBool]

/-- A trivial scipy oracle used to instantiate theorems on concrete data. -/
def spZero : Scipy :=
  { f_oneway := fun _ => (0, 0),
    ttest_ind := fun _ _ => (0, 0),
    mannwhitneyu := fun _ _ => (0, 0) }

/-- Any nonempty list has a Python max and min. -/
theorem pyMax_pyMin_of_ne_nil {l : List ℚ} (h : l ≠ []) :
    ∃ mx mn, pyMax l = some mx ∧ pyMin l = some mn := by
  cases l with
  | nil => exact absurd rfl h
  | cons a t => exact ⟨_, _, rfl, rfl⟩

/-- C4: with both limits present and a nonzero range, the relevance flag is
exactly the inclusive comparison
`max(mean_values) - min(mean_values) >= threshold * (upper - lower)`; in
particular equality yields `relevance = true`. -/
theorem relevance_boundary_inclusive (lo hi threshold : ℚ)
    (r : AnalysisResult) (l : List ℚ) (mx mn : ℚ)
    (hm : r.mean_values = some l) (hmx : pyMax l = some mx)
    (hmn : pyMin l = some mn) (hr : hi - lo ≠ 0) :
    ∃ r', relevanceAugment { lower_limit := some lo, upper_limit := some hi }
        threshold r = Except.ok r' ∧
      r'.relevance = some (decide (threshold * (hi - lo) ≤ mx - mn)) ∧
      (mx - mn = threshold * (hi - lo) → r'.relevance = some true) := by
  simp only [relevanceAugment, hm, if_neg hr, hmx, hmn]
  refine ⟨_, rfl, rfl, fun he => ?_⟩
  simp [he]

/-- C4 witness: limits 0 and 50 with threshold 1/5 and means [10, 20] sit
exactly on the boundary (diff 10 = 1/5 · 50) and come out relevant. -/
theorem relevance_boundary_inclusive_witness :
    ∃ r', relevanceAugment { lower_limit := some 0, upper_limit := some 50 }
        (1 / 5)
        { significant := some true, mean_values := some [10, 20] } =
        Except.ok r' ∧
      r'.relevance = some (decide ((1 / 5 : ℚ) * (50 - 0) ≤ 20 - 10)) ∧
      ((20 : ℚ) - 10 = (1 / 5 : ℚ) * (50 - 0) → r'.relevance = some true) :=
  relevance_boundary_inclusive 0 50 (1 / 5)
    { significant := some true, mean_values := some [10, 20] }
    [10, 20] 20 10 rfl (by norm_num [pyMax]) (by norm_num [pyMin]) (by norm_num)

/-- C6: a result carrying `mean_values` but missing either limit bound gets
exactly `relevance = false` and the missing-limit message, with every other
field unchanged. -/
theorem missing_limit_sets_relevance_false (limits_dict : LimitsDict)
    (threshold : ℚ) (r : AnalysisResult) (l : List ℚ)
    (hm : r.mean_values = some l)
    (hmiss : limits_dict.lower_limit = none ∨ limits_dict.upper_limit = none) :
    relevanceAugment limits_dict threshold r =
      Except.ok { r with
        relevance := some false,
        message := some ("Missing lower or upper limit – cannot assess relevance.") } := by
  cases hlo : limits_dict.lower_limit with
  | none =>
    cases hhi : limits_dict.upper_limit <;> simp [relevanceAugment, hm, hlo, hhi]
  | some lo =>
    cases hhi : limits_dict.upper_limit with
    | none => simp [relevanceAugment, hm, hlo, hhi]
    | some hi => simp_all

/-- C6 witness: an upper-limit-only limit set on a concrete result. -/
theorem missing_limit_sets_relevance_false_witness :
    relevanceAugment { lower_limit := none, upper_limit := some 50 } (1 / 10)
      { significant := some true, mean_values := some [10, 20] } =
      Except.ok {
        significant := some true,
        mean_values := some [10, 20],
        relevance := some false,
        message := some ("Missing lower or upper limit – cannot assess relevance.") } :=
  missing_limit_sets_relevance_false
    { lower_limit := none, upper_limit := some 50 } (1 / 10)
    { significant := some true, mean_values := some [10, 20] }
    [10, 20] rfl (Or.inl rfl)

/-- C10: with both limits present but reversed (negative range) and any
non-negative threshold, the comparison `max_diff >= threshold * range` always
holds, so `relevance` comes out `true`. -/
theorem reversed_limits_force_relevance_true (lo hi threshold : ℚ)
    (r : AnalysisResult) (l : List ℚ)
    (hrev : hi < lo) (hthr : 0 ≤ threshold)
    (hm : r.mean_values = some l) (hne : l ≠ []) :
    ∃ r', relevanceAugment { lower_limit := some lo, upper_limit := some hi }
        threshold r = Except.ok r' ∧ r'.relevance = some true := by
  have hr : hi - lo ≠ 0 := sub_ne_zero.mpr (ne_of_lt hrev)
  obtain ⟨mx, mn, hmx, hmn⟩ := pyMax_pyMin_of_ne_nil hne
  have hmm : mn ≤ mx := pyMin_le_pyMax hmx hmn
  have hneg : threshold * (hi - lo) ≤ 0 := by nlinarith
  have hkey : threshold * (hi - lo) ≤ mx - mn :=
    le_trans hneg (sub_nonneg.mpr hmm)
  simp only [relevanceAugment, hm, if_neg hr, hmx, hmn]
  exact ⟨_, rfl, by simp [hkey]⟩

/-- C10 witness: limits 50 and 0 (reversed), threshold 1/10, means differing
by only 1/2 — still flagged relevant. -/
theorem reversed_limits_force_relevance_true_witness :
    ∃ r', relevanceAugment { lower_limit := some 50, upper_limit := some 0 }
        (1 / 10) { significant := some true, mean_values := some [10, 21 / 2] } =
        Except.ok r' ∧ r'.relevance = some true :=
  reversed_limits_force_relevance_true 50 0 (1 / 10)
    { significant := some true, mean_values := some [10, 21 / 2] }
    [10, 21 / 2] (by norm_num) (by norm_num) rfl (by simp)

/-- C7: the relevance wrapper never fails on any result whose `mean_values`,
if present, is nonempty (the shape every engine test returns), and a result
without `mean_values` — an error result — is passed through exactly as the
wrapped test produced it. -/
theorem relevance_wrapper_total_and_passthrough (limits_dict : LimitsDict)
    (threshold : ℚ)
    (analyze_func : ColumnView → String → String → AnalysisResult)
    (df : ColumnView) (group_col value_col : String)
    (hcontract : ∀ l,
      (analyze_func df group_col value_col).mean_values = some l → l ≠ []) :
    (relevance_decorator limits_dict threshold analyze_func df group_col
      value_col).isOk = true ∧
    ((analyze_func df group_col value_col).mean_values = none →
      relevance_decorator limits_dict threshold analyze_func df group_col
        value_col = Except.ok (analyze_func df group_col value_col)) := by
  constructor
  · exact relevanceAugment_isOk _ _ _ hcontract
  · intro hnone
    simp [relevance_decorator, relevanceAugment, hnone]

/-- C7 witness: an error-only result passes through the wrapper untouched. -/
theorem relevance_wrapper_total_and_passthrough_witness :
    (relevance_decorator { lower_limit := some 0, upper_limit := some 50 }
      (1 / 5)
      (fun _ _ _ => { error := some ("T-Test requires exactly two groups.") })
      { rows := [("A", 1)] } "g" "v").isOk = true ∧
    ((({ error := some ("T-Test requires exactly two groups.") } :
        AnalysisResult)).mean_values = none →
      relevance_decorator { lower_limit := some 0, upper_limit := some 50 }
        (1 / 5)
        (fun _ _ _ => { error := some ("T-Test requires exactly two groups.") })
        { rows := [("A", 1)] } "g" "v" =
        Except.ok { error := some ("T-Test requires exactly two groups.") }) :=
  relevance_wrapper_total_and_passthrough
    { lower_limit := some 0, upper_limit := some 50 } (1 / 5)
    (fun _ _ _ => { error := some ("T-Test requires exactly two groups.") })
    { rows := [("A", 1)] } "g" "v" (fun l h => by cases h)

/-- C5: whenever the grouping column does not have exactly two distinct
values, the T-Test returns exactly the error-only result with its two-group
message, and the Mann-Whitney U test honors the same error contract: an
error-only result with no numeric fields. -/
theorem two_group_tests_error_contract (sp : Scipy) (df : ColumnView)
    (h : numGroups df ≠ 2) :
    TTestAnalysis.analyze sp df =
      { error := some ("T-Test requires exactly two groups.") } ∧
    MannWhitneyAnalysis.analyze sp df =
      { error := some ("Mann-Whitney U-Test requires exactly two groups.") } := by
  rcases hg : df.groups with _ | ⟨g1, _ | ⟨g2, _ | ⟨g3, t⟩⟩⟩
  · exact ⟨by simp [TTestAnalysis.analyze, hg],
      by simp [MannWhitneyAnalysis.analyze, hg]⟩
  · exact ⟨by simp [TTestAnalysis.analyze, hg],
      by simp [MannWhitneyAnalysis.analyze, hg]⟩
  · exact absurd (by simp [numGroups, hg]) h
  · exact ⟨by simp [TTestAnalysis.analyze, hg],
      by simp [MannWhitneyAnalysis.analyze, hg]⟩

theorem except_bind_ok {α β ε : Type} (a : α) (f : α → Except ε β) :
    (Except.ok a >>= f) = f a := rfl

theorem exists_ok_of_isOk {e : Except String AnalysisResult}
    (h : e.isOk = true) : ∃ r, e = Except.ok r := by
  cases e with
  | error _ => simp [Except.isOk, Except.toBool] at h
  | ok r => exact ⟨r, rfl⟩

/-- A successful T-Test result never carries an empty `mean_values` list. -/
theorem ttest_mean_values_ne_nil (sp : Scipy) (df : ColumnView) :
    ∀ l, (TTestAnalysis.analyze sp df).mean_values = some l → l ≠ [] := by
  intro l hl
  unfold TTestAnalysis.analyze at hl
  rcases hg : df.groups with _ | ⟨g1, _ | ⟨g2, _ | ⟨g3, t⟩⟩⟩ <;> rw [hg] at hl
  · simp at hl
  · simp at hl
  · simp only [Option.some.injEq] at hl
    subst hl
    simp
  · simp at hl

/-- A successful Mann-Whitney result never carries an empty `mean_values`
list. -/
theorem mannwhitney_mean_values_ne_nil (sp : Scipy) (df : ColumnView) :
    ∀ l, (MannWhitneyAnalysis.analyze sp df).mean_values = some l → l ≠ [] := by
  intro l hl
  unfold MannWhitneyAnalysis.analyze at hl
  rcases hg : df.groups with _ | ⟨g1, _ | ⟨g2, _ | ⟨g3, t⟩⟩⟩ <;> rw [hg] at hl
  · simp at hl
  · simp at hl
  · simp only [Option.some.injEq] at hl
    subst hl
    simp
  · simp at hl

/-- An ANOVA result on a dataset with at least one group never carries an
empty `mean_values` list. -/
theorem anova_mean_values_ne_nil (sp : Scipy) (df : ColumnView)
    (hg : df.groups ≠ []) :
    ∀ l, (AnovaAnalysis.analyze sp df).mean_values = some l → l ≠ [] := by
  intro l hl
  unfold AnovaAnalysis.analyze at hl
  simp only [Option.some.injEq] at hl
  subst hl
  intro hc
  exact hg (by simpa using hc)

/-- One loop iteration of `process_columns` succeeds whenever the analysis it
runs never yields an empty `mean_values` list, and it preserves the test name
while attaching the column name. -/
theorem processOneAnalysis_ok (sp : Scipy) (apply_relevance : Bool)
    (lower_limit upper_limit : Option ℚ) (relevance_threshold : ℚ)
    (df : ColumnView) (group_col value_col : String) (k : AnalysisKind)
    (hne : ∀ l, (runAnalysis sp k df).mean_values = some l → l ≠ []) :
    ∃ r, processOneAnalysis sp apply_relevance lower_limit upper_limit
        relevance_threshold df group_col value_col k = Except.ok r ∧
      r.test = (runAnalysis sp k df).test ∧ r.column = some value_col := by
  simp only [processOneAnalysis, relevance_decorator]
  by_cases hw : (apply_relevance && lower_limit.isSome && upper_limit.isSome) = true
  · rw [if_pos hw]
    have hok := relevanceAugment_isOk
      { lower_limit := lower_limit, upper_limit := upper_limit }
      relevance_threshold (runAnalysis sp k df) hne
    obtain ⟨r', hr'⟩ := exists_ok_of_isOk hok
    rw [hr']
    refine ⟨_, rfl, ?_, rfl⟩
    exact (relevanceAugment_frame _ _ _ _ hr').1
  · rw [if_neg hw]
    exact ⟨_, rfl, rfl, rfl⟩

/-- C1: the test selection of `process_columns` is a pure function of the
number of distinct values in the grouping column: exactly 2 distinct values
run exactly the T-Test then the Mann-Whitney U test, more than 2 run exactly
ANOVA, and 0 or 1 produce no `AnalysisResult` at all — in every case each
produced result carries the processed column's name. -/
theorem dispatch_by_group_cardinality (sp : Scipy) (apply_relevance : Bool)
    (lower_limit upper_limit : Option ℚ) (relevance_threshold : ℚ)
    (df : ColumnView) (group_col value_col : String) :
    (numGroups df = 2 →
      ∃ r1 r2, processColumn sp apply_relevance lower_limit upper_limit
          relevance_threshold df group_col value_col = Except.ok [r1, r2] ∧
        r1.test = some ("T-Test") ∧ r2.test = some ("Mann-Whitney U-Test") ∧
        r1.column = some value_col ∧ r2.column = some value_col) ∧
    (2 < numGroups df →
      ∃ r, processColumn sp apply_relevance lower_limit upper_limit
          relevance_threshold df group_col value_col = Except.ok [r] ∧
        r.test = some ("ANOVA") ∧ r.column = some value_col) ∧
    (numGroups df ≤ 1 →
      processColumn sp apply_relevance lower_limit upper_limit
        relevance_threshold df group_col value_col = Except.ok []) := by
  refine ⟨?_, ?_, ?_⟩
  · intro h2
    obtain ⟨g1, g2, hg⟩ := List.length_eq_two.mp h2
    obtain ⟨r1, h1, ht1, hc1⟩ := processOneAnalysis_ok sp apply_relevance
      lower_limit upper_limit relevance_threshold df group_col value_col
      .ttest (ttest_mean_values_ne_nil sp df)
    obtain ⟨r2, hmw, ht2, hc2⟩ := processOneAnalysis_ok sp apply_relevance
      lower_limit upper_limit relevance_threshold df group_col value_col
      .mannwhitney (mannwhitney_mean_values_ne_nil sp df)
    refine ⟨r1, r2, ?_, ?_, ?_, hc1, hc2⟩
    · simp only [processColumn]
      rw [h2]
      simp only [analysesToRun, eq_self_iff_true, if_true, List.mapM_cons,
        List.mapM_nil, h1, hmw, except_bind_ok, pure_bind]
      rfl
    · rw [ht1]
      simp [runAnalysis, TTestAnalysis.analyze, hg]
    · rw [ht2]
      simp [runAnalysis, MannWhitneyAnalysis.analyze, hg]
  · intro h3
    have hgne : df.groups ≠ [] := by
      intro hnil
      rw [numGroups, hnil] at h3
      simp at h3
    obtain ⟨r, hr, htr, hcr⟩ := processOneAnalysis_ok sp apply_relevance
      lower_limit upper_limit relevance_threshold df group_col value_col
      .anova (anova_mean_values_ne_nil sp df hgne)
    refine ⟨r, ?_, ?_, hcr⟩
    · simp only [processColumn]
      have hne2 : numGroups df ≠ 2 := by omega
      simp only [analysesToRun, if_neg hne2, if_pos h3, List.mapM_cons,
        List.mapM_nil, hr, except_bind_ok, pure_bind]
      rfl
    · rw [htr]
      simp [runAnalysis, AnovaAnalysis.analyze]
  · intro h1
    simp only [processColumn]
    have hne2 : numGroups df ≠ 2 := by omega
    have hnlt : ¬(2 < numGroups df) := by omega
    simp only [analysesToRun, if_neg hne2, if_neg hnlt, List.mapM_nil]
    rfl

/-- C1 witness: a two-group dataset dispatches exactly T-Test and
Mann-Whitney, both tagged with the column name. -/
theorem dispatch_by_group_cardinality_witness :
    ∃ r1 r2, processColumn spZero false none none 0
        { rows := [("A", 1), ("B", 2)] } "g" "c" = Except.ok [r1, r2] ∧
      r1.test = some ("T-Test") ∧ r2.test = some ("Mann-Whitney U-Test") ∧
      r1.column = some ("c") ∧ r2.column = some ("c") :=
  (dispatch_by_group_cardinality spZero false none none 0
    { rows := [("A", 1), ("B", 2)] } "g" "c").1 (by decide)

/-- C5 witness: a single-group dataset trips both error paths. -/
theorem two_group_tests_error_contract_witness :
    TTestAnalysis.analyze spZero { rows := [("A", 1), ("A", 2)] } =
      { error := some ("T-Test requires exactly two groups.") } ∧
    MannWhitneyAnalysis.analyze spZero { rows := [("A", 1), ("A", 2)] } =
      { error := some ("Mann-Whitney U-Test requires exactly two groups.") } :=
  two_group_tests_error_contract spZero { rows := [("A", 1), ("A", 2)] }
    (by decide)

theorem rat_le_total (a b : ℚ) :
    decide (a ≤ b) = true ∨ decide (b ≤ a) = true := by
  rcases le_total a b with h | h
  · exact Or.inl (by simpa)
  · exact Or.inr (by simpa)

theorem rat_le_trans (a b c : ℚ) (h1 : decide (a ≤ b) = true)
    (h2 : decide (b ≤ c) = true) : decide (a ≤ c) = true := by
  simp only [decide_eq_true_eq] at *
  exact le_trans h1 h2

/-- C8: the cumulative-frequency renderer draws one trace per group in
first-encountered order, each trace plotting that group's values sorted
ascending with point i of n at height i/n, and overlays exactly the limits
that are present, every one as a vertical line. -/
theorem cumulative_frequency_plot_spec (df : ColumnView) (limits : Limits) :
    ((cumulativeFrequencyPlot df limits).traces.map Trace.name = df.groups) ∧
    (∀ t ∈ (cumulativeFrequencyPlot df limits).traces,
      List.Perm t.x (df.groupSample t.name) ∧
      List.Pairwise (fun a b : ℚ => a ≤ b) t.x ∧
      t.y = (List.range t.x.length).map
        (fun i => ((i : ℚ) + 1) / (t.x.length : ℚ))) ∧
    (∀ ll ∈ (cumulativeFrequencyPlot df limits).limitLines,
      ll.horizontal = false) ∧
    (∀ v : ℚ,
      (limits.lower_limit = some v ↔
        LimitLine.mk v false ("LSL") ∈
          (cumulativeFrequencyPlot df limits).limitLines) ∧
      (limits.upper_limit = some v ↔
        LimitLine.mk v false ("USL") ∈
          (cumulativeFrequencyPlot df limits).limitLines) ∧
      (limits.target_value = some v ↔
        LimitLine.mk v false ("T") ∈
          (cumulativeFrequencyPlot df limits).limitLines)) := by
  refine ⟨?_, ?_, ?_, ?_⟩
  · simp only [cumulativeFrequencyPlot]
    generalize df.groups = gs
    induction gs with
    | nil => rfl
    | cons g gs ih =>
      rw [List.map_cons, List.map_cons, ih]
  · intro t ht
    simp only [cumulativeFrequencyPlot, List.mem_map] at ht
    obtain ⟨g, hg, rfl⟩ := ht
    refine ⟨stableSort_perm _ _, ?_, rfl⟩
    have hp := pairwise_stableSort (fun a b : ℚ => decide (a ≤ b))
      rat_le_total rat_le_trans (df.groupSample g)
    exact hp.imp (fun h => of_decide_eq_true h)
  · intro ll hll
    simp only [cumulativeFrequencyPlot] at hll
    cases hlo : limits.lower_limit <;> cases hhi : limits.upper_limit <;>
      cases hta : limits.target_value <;>
      simp_all [addAllLimitLines] <;> rcases hll with h | h | h <;> simp_all
  · intro v
    simp only [cumulativeFrequencyPlot]
    cases hlo : limits.lower_limit <;> cases hhi : limits.upper_limit <;>
      cases hta : limits.target_value <;>
      simp [addAllLimitLines, hlo, hhi, hta, LimitLine.mk.injEq, eq_comm]

/-- C8 witness: a concrete two-group dataset with only an upper limit. -/
theorem cumulative_frequency_plot_spec_witness :
    ((cumulativeFrequencyPlot { rows := [("B", 3), ("A", 1), ("B", 2)] }
        { upper_limit := some 5 }).traces.map Trace.name =
      ColumnView.groups { rows := [("B", 3), ("A", 1), ("B", 2)] }) ∧
    (∀ t ∈ (cumulativeFrequencyPlot { rows := [("B", 3), ("A", 1), ("B", 2)] }
        { upper_limit := some 5 }).traces,
      List.Perm t.x
        (ColumnView.groupSample { rows := [("B", 3), ("A", 1), ("B", 2)] }
          t.name) ∧
      List.Pairwise (fun a b : ℚ => a ≤ b) t.x ∧
      t.y = (List.range t.x.length).map
        (fun i => ((i : ℚ) + 1) / (t.x.length : ℚ))) ∧
    (∀ ll ∈ (cumulativeFrequencyPlot { rows := [("B", 3), ("A", 1), ("B", 2)] }
        { upper_limit := some 5 }).limitLines, ll.horizontal = false) ∧
    (∀ v : ℚ,
      ((({ upper_limit := some 5 } : Limits)).lower_limit = some v ↔
        LimitLine.mk v false ("LSL") ∈
          (cumulativeFrequencyPlot { rows := [("B", 3), ("A", 1), ("B", 2)] }
            { upper_limit := some 5 }).limitLines) ∧
      ((({ upper_limit := some 5 } : Limits)).upper_limit = some v ↔
        LimitLine.mk v false ("USL") ∈
          (cumulativeFrequencyPlot { rows := [("B", 3), ("A", 1), ("B", 2)] }
            { upper_limit := some 5 }).limitLines) ∧
      ((({ upper_limit := some 5 } : Limits)).target_value = some v ↔
        LimitLine.mk v false ("T") ∈
          (cumulativeFrequencyPlot { rows := [("B", 3), ("A", 1), ("B", 2)] }
            { upper_limit := some 5 }).limitLines)) :=
  cumulative_frequency_plot_spec { rows := [("B", 3), ("A", 1), ("B", 2)] }
    { upper_limit := some 5 }

/-! ### Facts about the p-value dictionary of the Report Assembler -/

theorem dictGet_dictInsert_self (m : List (String × ℚ)) (k : String) (v : ℚ) :
    dictGet (dictInsert m k v) k = some v := by
  unfold dictInsert dictGet
  by_cases h : m.any (fun p => p.1 = k) = true
  · rw [if_pos h]
    induction m with
    | nil => simp at h
    | cons p m ih =>
      by_cases hp : p.1 = k
      · simp [List.find?_cons, hp]
      · simp only [List.any_cons, Bool.or_eq_true, decide_eq_true_eq] at h
        rcases h with h | h
        · exact absurd h hp
        · simp only [List.map_cons, if_neg hp]
          rw [List.find?_cons_of_neg _ (by simpa using hp)]
          exact ih (by simpa using h)
  · rw [if_neg h]
    have hnone : m.find? (fun p => p.1 = k) = none := by
      rw [List.find?_eq_none]
      intro x hx
      simp only [Bool.not_eq_true, decide_eq_false_iff_not]
      intro hc
      exact h (List.any_eq_true.mpr ⟨x, hx, by simpa using hc⟩)
    rw [List.find?_append, hnone]
    simp [List.find?_cons]

theorem dictGet_dictInsert_ne (m : List (String × ℚ)) (k : String) (v : ℚ)
    (c : String) (h : c ≠ k) :
    dictGet (dictInsert m k v) c = dictGet m c := by
  have hkc : decide (k = c) = false := by
    simp only [decide_eq_false_iff_not]
    exact fun hc => h hc.symm
  unfold dictInsert dictGet
  by_cases hm : m.any (fun p => p.1 = k) = true
  · rw [if_pos hm]
    clear hm
    induction m with
    | nil => simp
    | cons p m ih =>
      by_cases hp : p.1 = k
      · have h2 : decide (p.1 = c) = false := by
          simp only [decide_eq_false_iff_not]
          exact fun hc => h ((hp.symm.trans hc).symm)
        simp only [List.map_cons, if_pos hp, List.find?_cons, hkc, h2]
        exact ih
      · by_cases hc : p.1 = c
        · have h1 : decide (p.1 = c) = true := by simp [hc]
          simp only [List.map_cons, if_neg hp, List.find?_cons, h1]
        · have h1 : decide (p.1 = c) = false := by simp [hc]
          simp only [List.map_cons, if_neg hp, List.find?_cons, h1]
          exact ih
  · rw [if_neg hm]
    rw [List.find?_append]
    have hsing : List.find? (fun p => p.1 = c) [(k, v)] = none := by
      simp only [List.find?_cons, List.find?_nil, hkc]
    rw [hsing]
    simp

/-- The selector for the p-values that a given matching key collects from the
results list, in list order. -/
def matchingPValues (results : List AnalysisResult) (c : String) : List ℚ :=
  results.filterMap (fun r => if r.column = some c then r.p_value else none)

theorem buildPValues_getLast (results : List AnalysisResult) (c : String)
    (hwf : ∀ r ∈ results, r.column.isSome = true ∧ r.p_value.isSome = true) :
    ∃ p_values, buildPValues results = Except.ok p_values ∧
      dictGet p_values c = (matchingPValues results c).getLast? := by
  induction results using List.reverseRecOn with
  | nil => exact ⟨[], rfl, rfl⟩
  | append_singleton rs r ih =>
    obtain ⟨pv, hpv, hget⟩ := ih (fun x hx => hwf x (by simp [hx]))
    obtain ⟨c0, hc0⟩ := Option.isSome_iff_exists.mp (hwf r (by simp)).1
    obtain ⟨p0, hp0⟩ := Option.isSome_iff_exists.mp (hwf r (by simp)).2
    have hstep : buildPValues (rs ++ [r]) =
        Except.ok (dictInsert pv c0 p0) := by
      unfold buildPValues at hpv ⊢
      rw [List.foldlM_append, hpv, except_bind_ok]
      simp [hc0, hp0, except_bind_ok]
    refine ⟨dictInsert pv c0 p0, hstep, ?_⟩
    rw [matchingPValues, List.filterMap_append]
    by_cases hcc : c0 = c
    · subst hcc
      have : List.filterMap
          (fun r => if r.column = some c0 then r.p_value else none) [r] = [p0] := by
        simp [hc0, hp0]
      rw [this, List.getLast?_concat, dictGet_dictInsert_self]
    · have : List.filterMap
          (fun r => if r.column = some c then r.p_value else none) [r] = [] := by
        simp [hc0, hp0, fun h => hcc (by simpa using h)]
      rw [this, List.append_nil, dictGet_dictInsert_ne _ _ _ _
        (fun h => hcc h.symm)]
      exact hget

/-- C9: when several results share the same `column`, the plot-ranking key
built by `_sort_plots_by_significance` is the `p_value` of the last such
result in the list — earlier duplicates have no effect. -/
theorem ranking_key_is_last_result (results : List AnalysisResult)
    (name : String)
    (hwf : ∀ r ∈ results, r.column.isSome = true ∧ r.p_value.isSome = true) :
    ∃ p_values, buildPValues results = Except.ok p_values ∧
      sortKey p_values name =
        (matchingPValues results (splitLast name)).getLast? := by
  obtain ⟨pv, hpv, hget⟩ := buildPValues_getLast results (splitLast name) hwf
  exact ⟨pv, hpv, hget⟩

/-- C9 witness: two results for column "a" with p-values 2 then 1; the
ranking key of plot "Box_a" is the later one. -/
theorem ranking_key_is_last_result_witness :
    ∃ p_values, buildPValues
        [{ column := some ("a"), p_value := some 2 },
         { column := some ("a"), p_value := some 1 }] = Except.ok p_values ∧
      sortKey p_values ("Box_a") =
        (matchingPValues
          [{ column := some ("a"), p_value := some 2 },
           { column := some ("a"), p_value := some 1 }]
          (splitLast ("Box_a"))).getLast? :=
  ranking_key_is_last_result
    [{ column := some ("a"), p_value := some 2 },
     { column := some ("a"), p_value := some 1 }]
    ("Box_a") (by decide)

theorem pairwise_of_forall_rel {α : Type} {R : α → α → Prop}
    (h : ∀ a b, R a b) : ∀ l : List α, l.Pairwise R := by
  intro l
  induction l with
  | nil => exact List.Pairwise.nil
  | cons x xs ih => exact List.pairwise_cons.mpr ⟨fun b _ => h x b, ih⟩

/-- C2 (amended): the emitted plot order of `_sort_plots_by_significance` is
the stable sort of the plot mapping by the p-value recorded for the segment
of each plot name after its last underscore; plots whose segment matches no
result rank as `float('inf')` (last), and plots with equal keys — in
particular all unmatched plots — keep their original relative order. -/
theorem sort_plots_segment_ranking {α : Type} (results : List AnalysisResult)
    (plots : List (String × α))
    (hwf : ∀ r ∈ results, r.column.isSome = true ∧ r.p_value.isSome = true) :
    ∃ p_values out, buildPValues results = Except.ok p_values ∧
      sortPlotsBySignificance results plots = Except.ok out ∧
      List.Perm out plots ∧
      out.Pairwise (fun a b =>
        keyLE (sortKey p_values a.1) (sortKey p_values b.1) = true) ∧
      ∀ q : Option ℚ,
        out.filter (fun a => sortKey p_values a.1 = q) =
          plots.filter (fun a => sortKey p_values a.1 = q) := by
  by_cases hres : results.isEmpty = true
  · have hnil : results = [] := by
      cases results with
      | nil => rfl
      | cons r rs => simp at hres
    subst hnil
    refine ⟨[], plots, rfl, rfl, List.Perm.refl _, ?_, fun q => rfl⟩
    exact pairwise_of_forall_rel (fun a b => rfl) plots
  · obtain ⟨pv, hpv, _⟩ := buildPValues_getLast results ("") hwf
    have hsort : sortPlotsBySignificance results plots =
        Except.ok (stableSort
          (fun a b => keyLE (sortKey pv a.1) (sortKey pv b.1)) plots) := by
      unfold sortPlotsBySignificance
      rw [if_neg hres, hpv, except_bind_ok]
    have htot : ∀ a b : String × α,
        (keyLE (sortKey pv a.1) (sortKey pv b.1)) = true ∨
        (keyLE (sortKey pv b.1) (sortKey pv a.1)) = true :=
      fun a b => keyLE_total _ _
    have htrans : ∀ a b c : String × α,
        keyLE (sortKey pv a.1) (sortKey pv b.1) = true →
        keyLE (sortKey pv b.1) (sortKey pv c.1) = true →
        keyLE (sortKey pv a.1) (sortKey pv c.1) = true :=
      fun a b c h1 h2 => keyLE_trans _ _ _ h1 h2
    refine ⟨pv, _, hpv, hsort, stableSort_perm _ _,
      pairwise_stableSort _ htot htrans plots, ?_⟩
    intro q
    refine filter_stableSort _ htot htrans _ ?_ plots
    intro a b ha
    simp only [decide_eq_true_eq] at ha ⊢
    rw [ha, keyLE_antisymm_iff]
    exact eq_comm

/-- C2 witness: one result for column "b"; plot "a_b" matches it via its
last underscore segment and plot "c" matches nothing. -/
theorem sort_plots_segment_ranking_witness :
    ∃ p_values out, buildPValues
        [{ column := some ("b"), p_value := some 1 }] =
        Except.ok p_values ∧
      sortPlotsBySignificance [{ column := some ("b"), p_value := some 1 }]
        [("a_b", (0 : ℕ)), ("c", 1)] = Except.ok out ∧
      List.Perm out [("a_b", (0 : ℕ)), ("c", 1)] ∧
      out.Pairwise (fun a b =>
        keyLE (sortKey p_values a.1) (sortKey p_values b.1) = true) ∧
      ∀ q : Option ℚ,
        out.filter (fun a => sortKey p_values a.1 = q) =
          [("a_b", (0 : ℕ)), ("c", 1)].filter
            (fun a => sortKey p_values a.1 = q) :=
  sort_plots_segment_ranking [{ column := some ("b"), p_value := some 1 }]
    [("a_b", (0 : ℕ)), ("c", 1)] (by decide)

/-- A Boolean substring test between strings, on their character lists. -/
def isSubstring (s t : String) : Bool :=
  t.data.tails.any (fun suf => s.data.isPrefixOf suf)

/-- Written from the spec's words for C2, to compare against the code: the
p-values of the AnalysisResults whose `column` is a substring match of the
plot name, in result order. -/
def specSubstringPValues (results : List AnalysisResult) (name : String) :
    List ℚ :=
  results.filterMap (fun r =>
    match r.column, r.p_value with
    | some c, some p => if isSubstring c name then some p else none
    | _, _ => none)

/-- C2 counterexample: the plot name "col_a" contains an underscore, so the
code looks up only the segment "a" and finds nothing, ranking the plot as
`float('inf')` — even though the result for column "col_a" (p-value 0) is a
substring match of the plot name.  The emitted order therefore puts the
plot whose unique substring-matched p-value is 1 before the plot whose
unique substring-matched p-value is 0, refuting the claimed non-decreasing
substring-match ranking. -/
theorem sort_plots_substring_claim_counterexample :
    sortPlotsBySignificance
        [{ column := some ("col_a"), p_value := some 0 },
         { column := some ("zzz"), p_value := some 1 }]
        [("zzz", (0 : ℕ)), ("col_a", 1)] =
      Except.ok [("zzz", 0), ("col_a", 1)] ∧
    specSubstringPValues
        [{ column := some ("col_a"), p_value := some 0 },
         { column := some ("zzz"), p_value := some 1 }] ("zzz") = [1] ∧
    specSubstringPValues
        [{ column := some ("col_a"), p_value := some 0 },
         { column := some ("zzz"), p_value := some 1 }] ("col_a") = [0] ∧
    ¬((1 : ℚ) ≤ 0) :=
  ⟨rfl, rfl, rfl, by decide⟩

/-- C3: report generation does NOT survive an error-carrying result.  For a
result with an `error` field and no `p_value`, the significance sort of
`ReportGenerator.__init__` raises `KeyError` (`result['p_value']`), and the
overview table raises `ValueError` formatting the `'N/A'` default with
`:.4f`; both stages of the generator fail, so the pipeline crashes instead
of rendering the issue as text. -/
theorem report_crashes_on_error_result :
    (reportGeneratorCore
        [{ error := some ("T-Test requires exactly two groups."),
           column := some ("ColA") }]
        [("ColA", (0 : ℕ))]).isOk = false ∧
    (sortPlotsBySignificance
        [{ error := some ("T-Test requires exactly two groups."),
           column := some ("ColA") }]
        [("ColA", (0 : ℕ))]).isOk = false ∧
    (overviewTableHtml
        [{ error := some ("T-Test requires exactly two groups."),
           column := some ("ColA") }]).isOk = false :=
  ⟨rfl, rfl, rfl⟩

end Exan

